import Mathlib

/-!
Verification of the pyroute2 test-fixture resource-lifecycle context manager
(`tests/test_linux/pr2test/context_manager.py`), shallowly embedded in Lean.

The embedding models:
* the capability guard `skip_if_not_supported`;
* the IPAM accessors `get_ipaddr` (list pop) and `get_ip6addr`
  (monotone counter into the pre-allocated IPv6 block);
* the cleanup registries (`interfaces`, `namespaces`, `rules`,
  `allocated_networks`) and their registration operations;
* `NDBContextManager.__init__`'s registry effects and `teardown`'s control
  flow, with all external collaborator outcomes (netlink calls, namespace
  removal, handle closes) supplied by an environment record, and the
  externally visible actions of teardown recorded as an event trace.
-/

namespace Pr2

/-! ### errno constants (Linux), as used via the `errno` module -/

def ENOENT : Nat := 2
def ENODEV : Nat := 19
def EACCES : Nat := 13
def EPERM : Nat := 1
def EOPNOTSUPP : Nat := 95

/-! ### Addresses and network blocks

`allocate_network` returns an `ip_network`-like block; we model a block by
its base address and its number of addresses.  Addresses are naturals. -/

abbrev Addr := Nat

structure NetBlock where
  base : Nat
  size : Nat
deriving DecidableEq, Repr

/-- `[str(x) for x in net]`: the ordered list of all addresses of a block. -/
def blockAddrs (b : NetBlock) : List Addr :=
  (List.range b.size).map (fun i => b.base + i)

/-- Address family, the keys of `self.allocated_networks`. -/
inductive Family where
  | inet
  | inet6
deriving DecidableEq, Repr

/-! ### Python exceptions crossing the boundaries we model -/

inductive PyErr where
  | netlink (code : Nat)
  | runtime (args : List String)
  | fileNotFound
  | other (name : String)
deriving DecidableEq, Repr

/-! ### The `skip_if_not_supported` capability guard

`test_wrapper` runs the wrapped function and inspects the exception:
`NetlinkError` with code in `{EOPNOTSUPP, ENOENT}` becomes
`pytest.skip('feature not supported by platform')`, other `NetlinkError`s
are re-raised, `RuntimeError e` becomes `pytest.skip(*e.args)`, and any
other exception is not caught at all. -/

inductive Outcome (α : Type) where
  | ok (a : α)
  | skip (reason : List String)
  | raised (e : PyErr)
deriving DecidableEq, Repr

def skip_if_not_supported {α : Type} (res : Except PyErr α) : Outcome α :=
  match res with
  | .ok a => .ok a
  | .error (.netlink code) =>
      if code = EOPNOTSUPP ∨ code = ENOENT then
        .skip ["feature not supported by platform"]
      else
        .raised (.netlink code)
  | .error (.runtime args) => .skip args
  | .error e => .raised e

/-! ### IPv4 address pool: `get_ipaddr` pops from `self.ipranges[r]`

Python `list.pop()` removes and returns the LAST element and raises
`IndexError` on an empty list. -/

def pool_pop (pool : List Addr) : Option (Addr × List Addr) :=
  match pool.getLast? with
  | none => none
  | some a => some (a, pool.dropLast)

/-- `n` successive `get_ipaddr` calls on one range list: the returned
addresses in call order, and the remaining pool; `none` when some call
raised `IndexError`. -/
def pool_popN : Nat → List Addr → Option (List Addr × List Addr)
  | 0, pool => some ([], pool)
  | n + 1, pool =>
    match pool_pop pool with
    | none => none
    | some (a, rest) =>
      match pool_popN n rest with
      | none => none
      | some (as, final) => some (a :: as, final)

/-! ### The context state

The mutable state of one `NDBContextManager`, restricted to what the
cleanup registries and IPAM accessors touch.  Python dicts are modelled as
association lists in insertion order with unique keys. -/

/-- A rule spec: the keyword mapping passed to `ipr.rule('del', **rule)`. -/
abbrev RuleSpec := List (String × Nat)

/-- The source descriptors built from the target mode (lines 160-171). -/
inductive SourceKind where
  | local
  | netns
deriving DecidableEq, Repr

structure Source where
  target : String
  kind : SourceKind
  netnsArg : Option String
deriving DecidableEq, Repr

structure Ctx where
  /-- `self.db_provider == 'sqlite3'` (controls the postmortem backup). -/
  dbSqlite : Bool
  /-- `self.interfaces : dict` — ifname to owning netns or `None`. -/
  interfaces : List (String × Option String)
  /-- `self.namespaces : dict` — keys only, values are always `None`. -/
  namespaces : List String
  /-- `self.rules : list` of `(netns, spec)` pairs. -/
  rules : List (Option String × RuleSpec)
  /-- `self.ipnets`: the three pre-allocated IPv4 blocks. -/
  ipnets : List NetBlock
  /-- `self.ipranges`: materialized address lists of `ipnets`. -/
  ipranges : List (List Addr)
  /-- `self.ip6net`: the pre-allocated IPv6 block. -/
  ip6net : NetBlock
  /-- `self.ip6counter`: state of `itertools.count(1024)`. -/
  ip6counter : Nat
  /-- `self.allocated_networks[AF_INET]`. -/
  alloc4 : List NetBlock
  /-- `self.allocated_networks[AF_INET6]`. -/
  alloc6 : List NetBlock
  /-- `self.netns`: the namespace name when target mode is `netns`. -/
  netnsName : Option String
  /-- `kwarg['sources']` as derived from the target mode. -/
  sources : Option (List Source)
deriving Repr

/-- Python dict assignment `d[k] = v` on an association list: overwrite in
place if the key exists, else append. -/
def dictInsert (k : String) (v : Option String) :
    List (String × Option String) → List (String × Option String)
  | [] => [(k, v)]
  | p :: rest => if p.1 = k then (k, v) :: rest else p :: dictInsert k v rest

/-- `register(ifname, netns)` with an explicit name:
`self.interfaces[ifname] = netns; return ifname`. -/
def Ctx.register (ctx : Ctx) (ifname : String) (ns : Option String) :
    String × Ctx :=
  (ifname, { ctx with interfaces := dictInsert ifname ns ctx.interfaces })

/-- `register_netns(netns)` with an explicit name:
`self.namespaces[netns] = None; return netns`. -/
def Ctx.register_netns (ctx : Ctx) (name : String) : String × Ctx :=
  (name,
    { ctx with
      namespaces :=
        if name ∈ ctx.namespaces then ctx.namespaces
        else ctx.namespaces ++ [name] })

/-- `register_rule(spec, netns)`: `self.rules.append((netns, spec))`. -/
def Ctx.register_rule (ctx : Ctx) (spec : RuleSpec) (ns : Option String) :
    RuleSpec × Ctx :=
  (spec, { ctx with rules := ctx.rules ++ [(ns, spec)] })

/-- `register_network(family, network)`: append the block (freshly
allocated by the caller when absent) to `self.allocated_networks[family]`
and return the `Network` named tuple data. -/
def Ctx.register_network (ctx : Ctx) (family : Family) (block : NetBlock) :
    (Family × NetBlock) × Ctx :=
  match family with
  | .inet => ((family, block), { ctx with alloc4 := ctx.alloc4 ++ [block] })
  | .inet6 => ((family, block), { ctx with alloc6 := ctx.alloc6 ++ [block] })

/-! ### `get_ipaddr` and `get_ip6addr` at the context level -/

/-- `get_ipaddr(r)`: `return str(self.ipranges[r].pop())`; an out-of-range
`r` or an empty range raises (`none`). -/
def Ctx.get_ipaddr (ctx : Ctx) (r : Nat) : Option (Addr × Ctx) :=
  match ctx.ipranges[r]? with
  | none => none
  | some pool =>
    match pool_pop pool with
    | none => none
    | some (a, rest) =>
      some (a, { ctx with ipranges := ctx.ipranges.set r rest })

/-- `get_ip6addr(r)`: `return str(self.ip6net[next(self.ip6counter)])`.
The counter advances even when the indexing raises `IndexError` (`none`),
and the range argument `r` is never used by the body. -/
def Ctx.get_ip6addr (ctx : Ctx) (r : Nat) : Option Addr × Ctx :=
  let i := ctx.ip6counter
  let ctx' := { ctx with ip6counter := i + 1 }
  (if i < ctx.ip6net.size then some (ctx.ip6net.base + i) else none, ctx')

/-- `n` successive `get_ip6addr` calls: the per-call results in order and
the final state. -/
def ip6addrN : Nat → Ctx → Nat → List (Option Addr) × Ctx
  | 0, ctx, _ => ([], ctx)
  | n + 1, ctx, r =>
    let res := ctx.get_ip6addr r
    let rest := ip6addrN n res.2 r
    (res.1 :: rest.1, rest.2)

/-! ### Construction (`NDBContextManager.__init__`)

External collaborators consulted during construction are summarized by an
`InitEnv`: the values `allocate_network` returned, the generated uuid
namespace name, whether the user is root, and the generated default
interface name. -/

structure InitEnv where
  /-- `str(uuid.uuid4())` used by `register_netns` for a `netns` target. -/
  nsName : String
  /-- The three `allocate_network()` results, in call order. -/
  a1 : NetBlock
  a2 : NetBlock
  a3 : NetBlock
  /-- The `allocate_network(AF_INET6)` result. -/
  ip6block : NetBlock
  /-- `getpass.getuser() == 'root'`. -/
  isRoot : Bool
  /-- The `uifname()` result used for the root default interface. -/
  rootIfname : String
deriving Repr

inductive Target where
  | local
  | netns
  | other (s : String)
deriving DecidableEq, Repr

/-- The registry/IPAM effects of `NDBContextManager.__init__`, in program
order: empty registries; target resolution (a `netns` target registers a
fresh namespace name via `new_nsname`); IPAM pre-allocation (three IPv4
blocks, materialized ranges, one IPv6 block, counter from 1024, empty
`allocated_networks`); empty rule list; and, when running as root, the
default dummy interface registered via `new_ifname`. -/
def initCtx (env : InitEnv) (target : Target) (dbSqlite : Bool) : Ctx :=
  let namespaces := match target with
    | .netns => [env.nsName]
    | _ => []
  let netnsName := match target with
    | .netns => some env.nsName
    | _ => none
  let sources : Option (List Source) := match target with
    | .local => some [⟨"localhost", .local, none⟩]
    | .netns => some [⟨"localhost", .netns, some env.nsName⟩]
    | .other _ => none
  let ipnets := [env.a1, env.a2, env.a3]
  { dbSqlite
    interfaces := if env.isRoot then [(env.rootIfname, none)] else []
    namespaces
    rules := []
    ipnets
    ipranges := ipnets.map blockAddrs
    ip6net := env.ip6block
    ip6counter := 1024
    alloc4 := []
    alloc6 := []
    netnsName
    sources }

/-! ### Teardown (`NDBContextManager.teardown`)

Teardown issues calls to external collaborators; we record each call as an
event and let a `TdEnv` decide each call's outcome.  An exception that the
code does not swallow propagates out of `teardown` (there is no outer
handler), which the model renders as `some err` in the result. -/

inductive Event where
  /-- `self.ndb.backup(...)` for the sqlite3 provider. -/
  | backup
  | closeNdb
  | closeIpr
  | closeWg
  /-- `NetNS(nsname)` / `IPRoute()` opened inside a loop iteration. -/
  | openHandle (ns : Option String)
  /-- `ipr.link_lookup(ifname=ifname)`. -/
  | lookup (ifname : String)
  /-- `ipr.link('del', index=index)`. -/
  | linkDel (index : Nat)
  /-- `ipr.close()` in a loop iteration's `finally`. -/
  | closeHandle (ns : Option String)
  /-- `netns.remove(nsname)`. -/
  | nsRemove (name : String)
  /-- `ipr.rule('del', **rule)`. -/
  | ruleDel (ns : Option String) (spec : RuleSpec)
  /-- `free_network(net)` (family argument absent) or
  `free_network(net, family)`. -/
  | freeNet (b : NetBlock) (family : Option Family)
deriving DecidableEq, Repr

/-- Outcome of a delete call decided by the environment. -/
inductive DelOutcome where
  | ok
  | err (e : PyErr)
deriving DecidableEq, Repr

/-- The behavior of all external collaborators consulted by `teardown`. -/
structure TdEnv where
  closeNdbErr : Option PyErr
  closeIprErr : Option PyErr
  closeWgErr : Option PyErr
  /-- Whether `NetNS(ns)` / `IPRoute()` raises, per owning namespace. -/
  openErr : Option String → Option PyErr
  /-- `link_lookup(ifname=ifname)` on the handle for `ns`. -/
  linkIndices : Option String → String → List Nat
  /-- `link('del', index=i)` on the handle for `ns`. -/
  linkDelOutcome : Option String → Nat → DelOutcome
  /-- `netns.remove(name)`: `none` is success. -/
  nsRemoveErr : String → Option PyErr
  /-- `rule('del', **spec)` on the handle for `ns`. -/
  ruleDelOutcome : Option String → RuleSpec → DelOutcome

/-- Sequence two teardown fragments: when the first raised, the second
never runs. -/
def tdSeq :
    List Event × Option PyErr → List Event × Option PyErr →
    List Event × Option PyErr
  | (ev, some e), _ => (ev, some e)
  | (ev, none), r => (ev ++ r.1, r.2)

/-- Run one loop of teardown: iterations stop at the first one that
raised, and the exception propagates. -/
def runLoop {α : Type} (step : α → List Event × Option PyErr) :
    List α → List Event × Option PyErr
  | [] => ([], none)
  | x :: xs =>
    match step x with
    | (ev, some e) => (ev, some e)
    | (ev, none) =>
      let r := runLoop step xs
      (ev ++ r.1, r.2)

/-- One iteration of the interface loop (lines 322-350): open the right
handle, look up the index, `continue` when absent, delete otherwise;
`NetlinkError` with code `ENODEV` is swallowed, everything else is
re-raised; the `finally` closes the handle whenever it was opened. -/
def ifaceIter (env : TdEnv) (entry : String × Option String) :
    List Event × Option PyErr :=
  let ifname := entry.1
  let nsname := entry.2
  match env.openErr nsname with
  | some e => ([], some e)
  | none =>
    match env.linkIndices nsname ifname with
    | [] =>
      ([Event.openHandle nsname, Event.lookup ifname,
        Event.closeHandle nsname], none)
    | index :: _ =>
      let evs := [Event.openHandle nsname, Event.lookup ifname,
        Event.linkDel index, Event.closeHandle nsname]
      match env.linkDelOutcome nsname index with
      | .ok => (evs, none)
      | .err (.netlink code) =>
        if code = ENODEV then (evs, none)
        else (evs, some (.netlink code))
      | .err e => (evs, some e)

/-- One iteration of the namespace loop (lines 351-355):
`netns.remove(nsname)` with `FileNotFoundError` swallowed. -/
def nsIter (env : TdEnv) (name : String) : List Event × Option PyErr :=
  match env.nsRemoveErr name with
  | none => ([Event.nsRemove name], none)
  | some .fileNotFound => ([Event.nsRemove name], none)
  | some e => ([Event.nsRemove name], some e)

/-- One iteration of the rule loop (lines 356-369): open the right handle,
delete the rule; `NetlinkError` with code `ENOENT` is swallowed, everything
else re-raised; the `finally` closes the handle whenever it was opened. -/
def ruleIter (env : TdEnv) (entry : Option String × RuleSpec) :
    List Event × Option PyErr :=
  let nsname := entry.1
  let spec := entry.2
  match env.openErr nsname with
  | some e => ([], some e)
  | none =>
    let evs := [Event.openHandle nsname, Event.ruleDel nsname spec,
      Event.closeHandle nsname]
    match env.ruleDelOutcome nsname spec with
    | .ok => (evs, none)
    | .err (.netlink code) =>
      if code = ENOENT then (evs, none)
      else (evs, some (.netlink code))
    | .err e => (evs, some e)

/-- The `free_network` calls of lines 370-374: `self.ipnets` with the
family argument omitted, then `self.allocated_networks` in dict insertion
order (`AF_INET` first, then `AF_INET6`), with the family passed. -/
def freeEvents (ctx : Ctx) : List Event :=
  ctx.ipnets.map (fun b => Event.freeNet b none) ++
    ctx.alloc4.map (fun b => Event.freeNet b (some Family.inet)) ++
    ctx.alloc6.map (fun b => Event.freeNet b (some Family.inet6))

/-- `NDBContextManager.teardown`: postmortem backup for sqlite3; three
consecutive unguarded `close()` calls; the interface loop; the namespace
loop; the rule loop; the `free_network` calls.  An exception raised in any
step propagates immediately, skipping everything after it. -/
def teardown (env : TdEnv) (ctx : Ctx) : List Event × Option PyErr :=
  tdSeq ((if ctx.dbSqlite then [Event.backup] else []), none) <|
  tdSeq ([Event.closeNdb], env.closeNdbErr) <|
  tdSeq ([Event.closeIpr], env.closeIprErr) <|
  tdSeq ([Event.closeWg], env.closeWgErr) <|
  tdSeq (runLoop (ifaceIter env) ctx.interfaces) <|
  tdSeq (runLoop (nsIter env) ctx.namespaces) <|
  tdSeq (runLoop (ruleIter env) ctx.rules) <|
  (freeEvents ctx, none)

/-! Event classifiers used to state trace properties. -/

def Event.isLookup : Event → Bool
  | .lookup _ => true
  | _ => false

def Event.isNsRemove : Event → Bool
  | .nsRemove _ => true
  | _ => false

def Event.isRuleDel : Event → Bool
  | .ruleDel _ _ => true
  | _ => false

def Event.isFreeNet : Event → Bool
  | .freeNet _ _ => true
  | _ => false

/-- Number of `free_network` calls for a given block in a trace. -/
def freesOf (b : NetBlock) (tr : List Event) : Nat :=
  (tr.filter (fun e =>
    match e with
    | .freeNet b' _ => b' = b
    | _ => false)).length

/-! ## Basic lemmas about the pool accessors -/

theorem pool_pop_concat (xs : List Addr) (a : Addr) :
    pool_pop (xs ++ [a]) = some (a, xs) := by
  simp [pool_pop, List.getLast?_concat, List.dropLast_concat]

theorem pool_popN_none_of_lt (n : Nat) :
    ∀ pool : List Addr, pool.length < n → pool_popN n pool = none := by
  induction n with
  | zero => intro pool h; omega
  | succ n ih =>
    intro pool h
    rw [pool_popN]
    cases hp : pool_pop pool with
    | none => rfl
    | some pr =>
      rcases pr with ⟨a, rest⟩
      have hne : pool ≠ [] := by
        intro hnil
        rw [hnil] at hp
        simp [pool_pop] at hp
      have hrest : rest.length < n := by
        unfold pool_pop at hp
        cases hg : pool.getLast? with
        | none =>
          rw [hg] at hp
          simp at hp
        | some b =>
          rw [hg] at hp
          simp at hp
          have : rest = pool.dropLast := hp.2.symm
          rw [this]
          have : pool.dropLast.length = pool.length - 1 :=
            List.length_dropLast pool
          rw [this]
          have hpos : 0 < pool.length := List.length_pos.mpr hne
          omega
      simp [ih rest hrest]

theorem pool_popN_split (zs xs : List Addr) :
    pool_popN zs.length (xs ++ zs.reverse) = some (zs, xs) := by
  induction zs generalizing xs with
  | nil => simp [pool_popN]
  | cons z zt ih =>
    have hsplit : xs ++ (z :: zt).reverse = (xs ++ zt.reverse) ++ [z] := by
      simp
    simp only [List.length_cons, pool_popN, hsplit, pool_pop_concat, ih]

theorem ip6addrN_get (n : Nat) :
    ∀ (k : Nat) (ctx : Ctx) (r : Nat), k < n →
    (ip6addrN n ctx r).1[k]? =
      some (if ctx.ip6counter + k < ctx.ip6net.size
            then some (ctx.ip6net.base + (ctx.ip6counter + k)) else none) := by
  induction n with
  | zero => intro k ctx r hk; omega
  | succ n ih =>
    intro k ctx r hk
    cases k with
    | zero =>
      simp [ip6addrN, Ctx.get_ip6addr]
    | succ k =>
      have hk' : k < n := by omega
      have := ih k { ctx with ip6counter := ctx.ip6counter + 1 } r hk'
      simp only [ip6addrN, Ctx.get_ip6addr, List.getElem?_cons_succ]
      rw [this]
      have harith : ctx.ip6counter + 1 + k = ctx.ip6counter + (k + 1) := by omega
      simp [harith]

/-! ## Claim theorems: capability guard and IPAM accessors -/

/-- Claim C6: an operation wrapped by `skip_if_not_supported` that raises a
netlink error with code `EOPNOTSUPP` or `ENOENT` yields a skip outcome with
reason "feature not supported by platform"; a generic `RuntimeError` yields
a skip outcome carrying that error's message; any netlink error with
another code — such as `EACCES`, permission denied — is re-raised
unchanged. -/
theorem C6_unsupported_guard (c : Nat) (msg : List String)
    (h1 : c ≠ EOPNOTSUPP) (h2 : c ≠ ENOENT) :
    skip_if_not_supported
        (Except.error (PyErr.netlink EOPNOTSUPP) : Except PyErr Unit) =
      Outcome.skip ["feature not supported by platform"] ∧
    skip_if_not_supported
        (Except.error (PyErr.netlink ENOENT) : Except PyErr Unit) =
      Outcome.skip ["feature not supported by platform"] ∧
    skip_if_not_supported
        (Except.error (PyErr.runtime msg) : Except PyErr Unit) =
      Outcome.skip msg ∧
    skip_if_not_supported
        (Except.error (PyErr.netlink c) : Except PyErr Unit) =
      Outcome.raised (PyErr.netlink c) ∧
    skip_if_not_supported
        (Except.error (PyErr.netlink EACCES) : Except PyErr Unit) =
      Outcome.raised (PyErr.netlink EACCES) := by
  refine ⟨by simp [skip_if_not_supported], by simp [skip_if_not_supported],
    rfl, ?_, by simp [skip_if_not_supported, EACCES, EOPNOTSUPP, ENOENT]⟩
  simp [skip_if_not_supported, h1, h2]

theorem C6_unsupported_guard_witness :
    ((13 : Nat) ≠ EOPNOTSUPP ∧ (13 : Nat) ≠ ENOENT) ∧
    (skip_if_not_supported
        (Except.error (PyErr.netlink EOPNOTSUPP) : Except PyErr Unit) =
      Outcome.skip ["feature not supported by platform"] ∧
    skip_if_not_supported
        (Except.error (PyErr.netlink ENOENT) : Except PyErr Unit) =
      Outcome.skip ["feature not supported by platform"] ∧
    skip_if_not_supported
        (Except.error (PyErr.runtime ["no kernel support"]) : Except PyErr Unit) =
      Outcome.skip ["no kernel support"] ∧
    skip_if_not_supported
        (Except.error (PyErr.netlink 13) : Except PyErr Unit) =
      Outcome.raised (PyErr.netlink 13) ∧
    skip_if_not_supported
        (Except.error (PyErr.netlink EACCES) : Except PyErr Unit) =
      Outcome.raised (PyErr.netlink EACCES)) :=
  ⟨⟨by decide, by decide⟩,
    C6_unsupported_guard 13 ["no kernel support"] (by decide) (by decide)⟩

/-- Claim C9: `get_ip6addr(r)` ignores its range argument entirely: in the
same counter state, any two range arguments give the same result (both the
returned address and the successor state). -/
theorem C9_get_ip6addr_ignores_range (ctx : Ctx) (r1 r2 : Nat) :
    ctx.get_ip6addr r1 = ctx.get_ip6addr r2 := rfl

/-- Claim C5: starting from a freshly constructed context (whose IPv6
counter is 1024), no two distinct calls in any sequence of `get_ip6addr`
calls return the same address: the strictly increasing counter indexes
distinct offsets of the pre-allocated IPv6 block. -/
theorem C5_ip6_never_repeats (env : InitEnv) (t : Target) (d : Bool)
    (r n j k : Nat) (a b : Addr) (hjk : j < k) (hk : k < n)
    (ha : (ip6addrN n (initCtx env t d) r).1[j]? = some (some a))
    (hb : (ip6addrN n (initCtx env t d) r).1[k]? = some (some b)) :
    a ≠ b ∧ (initCtx env t d).ip6counter = 1024 := by
  have hcnt : (initCtx env t d).ip6counter = 1024 := rfl
  refine ⟨?_, hcnt⟩
  have hj' := ip6addrN_get n j (initCtx env t d) r (Nat.lt_trans hjk hk)
  have hk' := ip6addrN_get n k (initCtx env t d) r hk
  rw [hj'] at ha
  rw [hk'] at hb
  by_cases cj : (initCtx env t d).ip6counter + j < (initCtx env t d).ip6net.size
  · by_cases ck : (initCtx env t d).ip6counter + k < (initCtx env t d).ip6net.size
    · rw [if_pos cj] at ha
      rw [if_pos ck] at hb
      simp only [Option.some.injEq] at ha hb
      intro hab
      subst hab
      omega
    · rw [if_neg ck] at hb
      simp at hb
  · rw [if_neg cj] at ha
    simp at ha

theorem C5_ip6_never_repeats_witness :
    (0 < 2 ∧ 2 < 3 ∧
      (ip6addrN 3 (initCtx ⟨"n", ⟨1, 2⟩, ⟨3, 2⟩, ⟨5, 2⟩, ⟨7000, 2048⟩, false, "i"⟩
        Target.local true) 0).1[0]? = some (some 8024) ∧
      (ip6addrN 3 (initCtx ⟨"n", ⟨1, 2⟩, ⟨3, 2⟩, ⟨5, 2⟩, ⟨7000, 2048⟩, false, "i"⟩
        Target.local true) 0).1[2]? = some (some 8026)) ∧
    ((8024 : Addr) ≠ 8026 ∧
      (initCtx ⟨"n", ⟨1, 2⟩, ⟨3, 2⟩, ⟨5, 2⟩, ⟨7000, 2048⟩, false, "i"⟩
        Target.local true).ip6counter = 1024) :=
  ⟨⟨by decide, by decide, by decide, by decide⟩,
    C5_ip6_never_repeats ⟨"n", ⟨1, 2⟩, ⟨3, 2⟩, ⟨5, 2⟩, ⟨7000, 2048⟩, false, "i"⟩
      Target.local true 0 3 0 2 8024 8026 (by decide) (by decide)
      (by decide) (by decide)⟩

/-- Claim C4: on a duplicate-free IPv4 address pool, any `n ≤ pool size`
successive `get_ipaddr` calls succeed and return pairwise-distinct
addresses, consumed in LIFO order (the reversed tail of the materialized
range); once the pool is exhausted the next call raises instead of
returning a stale value (`pool_pop [] = none`, and `pool_popN` of
`size + 1` calls is `none`). -/
theorem C4_ipv4_pool (pool : List Addr) (n : Nat)
    (hnd : pool.Nodup) (hn : n ≤ pool.length) :
    pool_popN n pool =
      some ((pool.drop (pool.length - n)).reverse,
        pool.take (pool.length - n)) ∧
    ((pool.drop (pool.length - n)).reverse).Nodup ∧
    (n = pool.length →
      pool_popN n pool = some (pool.reverse, []) ∧
      pool_pop [] = none ∧ pool_popN (n + 1) pool = none) := by
  have hlen : ((pool.drop (pool.length - n)).reverse).length = n := by
    simp [List.length_reverse, List.length_drop]
    omega
  have hsplit :
      pool.take (pool.length - n) ++ ((pool.drop (pool.length - n)).reverse).reverse
        = pool := by
    simp [List.reverse_reverse, List.take_append_drop]
  have hmain := pool_popN_split ((pool.drop (pool.length - n)).reverse)
    (pool.take (pool.length - n))
  rw [hlen, hsplit] at hmain
  refine ⟨hmain, ?_, ?_⟩
  · exact (List.nodup_reverse).mpr (hnd.sublist (List.drop_sublist _ _))
  · intro hfull
    have hzero : pool.length - n = 0 := by omega
    refine ⟨?_, rfl, ?_⟩
    · rw [hmain, hzero]
      simp
    · exact pool_popN_none_of_lt (n + 1) pool (by omega)

theorem C4_ipv4_pool_witness :
    (([20, 21, 22] : List Addr).Nodup ∧
      3 ≤ ([20, 21, 22] : List Addr).length) ∧
    (pool_popN 3 [20, 21, 22] =
      some ((([20, 21, 22] : List Addr).drop
          (([20, 21, 22] : List Addr).length - 3)).reverse,
        ([20, 21, 22] : List Addr).take
          (([20, 21, 22] : List Addr).length - 3)) ∧
    ((([20, 21, 22] : List Addr).drop
        (([20, 21, 22] : List Addr).length - 3)).reverse).Nodup ∧
    (3 = ([20, 21, 22] : List Addr).length →
      pool_popN 3 [20, 21, 22] =
        some (([20, 21, 22] : List Addr).reverse, []) ∧
      pool_pop [] = none ∧ pool_popN (3 + 1) [20, 21, 22] = none)) :=
  ⟨⟨by decide, by decide⟩, C4_ipv4_pool [20, 21, 22] 3 (by decide) (by decide)⟩

/-! ## Teardown machinery lemmas -/

theorem tdSeq_none (a r : List Event × Option PyErr) (h : a.2 = none) :
    tdSeq a r = (a.1 ++ r.1, r.2) := by
  rcases a with ⟨ev, err⟩
  cases err with
  | none => rfl
  | some e => exact absurd h (by simp)

theorem tdSeq_some (a r : List Event × Option PyErr) (e : PyErr)
    (h : a.2 = some e) : tdSeq a r = (a.1, some e) := by
  rcases a with ⟨ev, err⟩
  cases err with
  | none => exact absurd h (by simp)
  | some e' =>
    simp at h
    rw [h]
    rfl

/-- Events produced by loop iterations, collected under a predicate the
per-iteration events all satisfy. -/
theorem runLoop_mem {α : Type} (step : α → List Event × Option PyErr)
    (P : Event → Prop) (hstep : ∀ x ev, ev ∈ (step x).1 → P ev) :
    ∀ (l : List α) (ev : Event), ev ∈ (runLoop step l).1 → P ev := by
  intro l
  induction l with
  | nil => simp [runLoop]
  | cons x xs ih =>
    intro ev hev
    rw [runLoop] at hev
    rcases hsx : step x with ⟨evs, err⟩
    rw [hsx] at hev
    cases err with
    | some e =>
      exact hstep x ev (by rw [hsx]; exact hev)
    | none =>
      simp at hev
      cases hev with
      | inl h => exact hstep x ev (by rw [hsx]; exact h)
      | inr h => exact ih ev h

/-- When every iteration of a loop succeeds and contributes exactly one
`p`-event `f x`, the loop succeeds and its `p`-events are `l.map f`. -/
theorem runLoop_filter_map {α : Type} (step : α → List Event × Option PyErr)
    (p : Event → Bool) (f : α → Event)
    (hstep : ∀ x, (step x).2 = none ∧ (step x).1.filter p = [f x]) :
    ∀ l : List α,
      (runLoop step l).2 = none ∧ (runLoop step l).1.filter p = l.map f := by
  intro l
  induction l with
  | nil => simp [runLoop]
  | cons x xs ih =>
    rcases hsx : step x with ⟨evs, err⟩
    have hx := hstep x
    rw [hsx] at hx
    simp at hx
    rw [runLoop, hsx, hx.1]
    simp [List.filter_append, hx.2, ih.1, ih.2]

/-- A loop never emits a `p`-event when no iteration does, whether or not
some iteration raises. -/
theorem runLoop_filter_nil {α : Type} (step : α → List Event × Option PyErr)
    (p : Event → Bool) (hstep : ∀ x, (step x).1.filter p = []) :
    ∀ l : List α, (runLoop step l).1.filter p = [] := by
  intro l
  induction l with
  | nil => simp [runLoop]
  | cons x xs ih =>
    rcases hsx : step x with ⟨evs, err⟩
    have hx := hstep x
    rw [hsx] at hx
    cases err with
    | some e =>
      simp only [runLoop, hsx]
      exact hx
    | none =>
      simp only [runLoop, hsx]
      simp [List.filter_append, hx, ih]

/-- The collaborator outcomes under which every delete either succeeds or
reports the expected absence condition: `link('del')` gives success or
`ENODEV`, `netns.remove` gives success or `FileNotFoundError`,
`rule('del')` gives success or `ENOENT`, and handles open and close
without error. -/
def TdEnv.benign (env : TdEnv) : Prop :=
  env.closeNdbErr = none ∧ env.closeIprErr = none ∧ env.closeWgErr = none ∧
  (∀ ns, env.openErr ns = none) ∧
  (∀ ns i, env.linkDelOutcome ns i = .ok ∨
    env.linkDelOutcome ns i = .err (.netlink ENODEV)) ∧
  (∀ nm, env.nsRemoveErr nm = none ∨
    env.nsRemoveErr nm = some .fileNotFound) ∧
  (∀ ns s, env.ruleDelOutcome ns s = .ok ∨
    env.ruleDelOutcome ns s = .err (.netlink ENOENT))

theorem ifaceIter_benign (env : TdEnv) (hopen : ∀ ns, env.openErr ns = none)
    (hdel : ∀ ns i, env.linkDelOutcome ns i = .ok ∨
      env.linkDelOutcome ns i = .err (.netlink ENODEV))
    (x : String × Option String) :
    (ifaceIter env x).2 = none ∧
    (ifaceIter env x).1.filter Event.isLookup = [Event.lookup x.1] ∧
    (ifaceIter env x).1.filter Event.isNsRemove = [] ∧
    (ifaceIter env x).1.filter Event.isRuleDel = [] ∧
    (ifaceIter env x).1.filter Event.isFreeNet = [] := by
  rcases x with ⟨ifname, nsname⟩
  simp only [ifaceIter, hopen nsname]
  cases hli : env.linkIndices nsname ifname with
  | nil =>
    simp [Event.isLookup, Event.isNsRemove, Event.isRuleDel, Event.isFreeNet]
  | cons i rest =>
    rcases hdel nsname i with hd | hd <;>
      simp [hd, ENODEV, Event.isLookup, Event.isNsRemove, Event.isRuleDel,
        Event.isFreeNet]

/-- Every branch of a namespace-loop iteration calls `netns.remove` on its
entry. -/
theorem nsIter_events (env : TdEnv) (nm : String) :
    (nsIter env nm).1 = [Event.nsRemove nm] := by
  unfold nsIter
  cases h : env.nsRemoveErr nm with
  | none => rfl
  | some e => cases e <;> rfl

theorem nsIter_benign (env : TdEnv)
    (hns : ∀ nm, env.nsRemoveErr nm = none ∨
      env.nsRemoveErr nm = some .fileNotFound)
    (nm : String) : (nsIter env nm).2 = none := by
  unfold nsIter
  rcases hns nm with h | h <;> rw [h]

theorem ruleIter_benign (env : TdEnv)
    (hopen : ∀ ns, env.openErr ns = none)
    (hdel : ∀ ns s, env.ruleDelOutcome ns s = .ok ∨
      env.ruleDelOutcome ns s = .err (.netlink ENOENT))
    (x : Option String × RuleSpec) :
    (ruleIter env x).2 = none ∧
    (ruleIter env x).1.filter Event.isRuleDel = [Event.ruleDel x.1 x.2] ∧
    (ruleIter env x).1.filter Event.isLookup = [] ∧
    (ruleIter env x).1.filter Event.isNsRemove = [] ∧
    (ruleIter env x).1.filter Event.isFreeNet = [] := by
  rcases x with ⟨nsname, spec⟩
  simp only [ruleIter, hopen nsname]
  rcases hdel nsname spec with hd | hd <;>
    simp [hd, ENOENT, Event.isLookup, Event.isNsRemove, Event.isRuleDel,
      Event.isFreeNet]

/-- Under benign collaborator outcomes, teardown runs every step and
returns normally, with the trace laid out step by step. -/
theorem teardown_benign (env : TdEnv) (ctx : Ctx) (h : env.benign) :
    teardown env ctx =
      ((if ctx.dbSqlite then [Event.backup] else []) ++
        ([Event.closeNdb] ++ ([Event.closeIpr] ++ ([Event.closeWg] ++
        ((runLoop (ifaceIter env) ctx.interfaces).1 ++
        ((runLoop (nsIter env) ctx.namespaces).1 ++
        ((runLoop (ruleIter env) ctx.rules).1 ++ freeEvents ctx)))))),
        none) := by
  obtain ⟨h1, h2, h3, hopen, hldel, hns, hrdel⟩ := h
  have hif : (runLoop (ifaceIter env) ctx.interfaces).2 = none :=
    (runLoop_filter_map (ifaceIter env) Event.isLookup
      (fun x => Event.lookup x.1)
      (fun x => ⟨(ifaceIter_benign env hopen hldel x).1,
        (ifaceIter_benign env hopen hldel x).2.1⟩) ctx.interfaces).1
  have hnsl : (runLoop (nsIter env) ctx.namespaces).2 = none :=
    (runLoop_filter_map (nsIter env) Event.isNsRemove Event.nsRemove
      (fun nm => ⟨nsIter_benign env hns nm, by
        rw [nsIter_events]
        simp [Event.isNsRemove]⟩) ctx.namespaces).1
  have hrl : (runLoop (ruleIter env) ctx.rules).2 = none :=
    (runLoop_filter_map (ruleIter env) Event.isRuleDel
      (fun x => Event.ruleDel x.1 x.2)
      (fun x => ⟨(ruleIter_benign env hopen hrdel x).1,
        (ruleIter_benign env hopen hrdel x).2.1⟩) ctx.rules).1
  rcases hA : runLoop (ifaceIter env) ctx.interfaces with ⟨evA, errA⟩
  rcases hB : runLoop (nsIter env) ctx.namespaces with ⟨evB, errB⟩
  rcases hC : runLoop (ruleIter env) ctx.rules with ⟨evC, errC⟩
  rw [hA] at hif
  rw [hB] at hnsl
  rw [hC] at hrl
  simp at hif hnsl hrl
  subst hif
  subst hnsl
  subst hrl
  unfold teardown
  rw [h1, h2, h3, hA, hB, hC]
  simp [tdSeq]

theorem filter_map_nil {β : Type} (p : Event → Bool) (f : β → Event)
    (l : List β) (h : ∀ x, p (f x) = false) :
    (l.map f).filter p = [] := by
  induction l with
  | nil => rfl
  | cons x xs ih => simp [h, ih]

theorem freeEvents_filter (ctx : Ctx) (p : Event → Bool)
    (hp : ∀ b fam, p (Event.freeNet b fam) = false) :
    (freeEvents ctx).filter p = [] := by
  simp [freeEvents, List.filter_append,
    filter_map_nil p _ ctx.ipnets (fun b => hp b none),
    filter_map_nil p _ ctx.alloc4 (fun b => hp b (some Family.inet)),
    filter_map_nil p _ ctx.alloc6 (fun b => hp b (some Family.inet6))]

/-- Under benign collaborator outcomes, teardown returns normally and
touches every registry entry exactly once: the `link_lookup` events are
exactly one per interface entry in registry order, the `netns.remove`
events exactly one per namespace entry, and the `rule('del')` events
exactly one per rule entry. -/
theorem teardown_benign_filters (env : TdEnv) (ctx : Ctx)
    (h : env.benign) :
    (teardown env ctx).2 = none ∧
    (teardown env ctx).1.filter Event.isLookup =
      ctx.interfaces.map (fun p => Event.lookup p.1) ∧
    (teardown env ctx).1.filter Event.isNsRemove =
      ctx.namespaces.map Event.nsRemove ∧
    (teardown env ctx).1.filter Event.isRuleDel =
      ctx.rules.map (fun p => Event.ruleDel p.1 p.2) := by
  have htd := teardown_benign env ctx h
  obtain ⟨h1, h2, h3, hopen, hldel, hns, hrdel⟩ := h
  have hifL := runLoop_filter_map (ifaceIter env) Event.isLookup
    (fun x => Event.lookup x.1)
    (fun x => ⟨(ifaceIter_benign env hopen hldel x).1,
      (ifaceIter_benign env hopen hldel x).2.1⟩) ctx.interfaces
  have hifN := runLoop_filter_nil (ifaceIter env) Event.isNsRemove
    (fun x => (ifaceIter_benign env hopen hldel x).2.2.1) ctx.interfaces
  have hifR := runLoop_filter_nil (ifaceIter env) Event.isRuleDel
    (fun x => (ifaceIter_benign env hopen hldel x).2.2.2.1) ctx.interfaces
  have hnsN := runLoop_filter_map (nsIter env) Event.isNsRemove
    Event.nsRemove
    (fun nm => ⟨nsIter_benign env hns nm, by
      rw [nsIter_events]
      simp [Event.isNsRemove]⟩) ctx.namespaces
  have hnsL := runLoop_filter_nil (nsIter env) Event.isLookup
    (fun nm => by rw [nsIter_events]; simp [Event.isLookup]) ctx.namespaces
  have hnsR := runLoop_filter_nil (nsIter env) Event.isRuleDel
    (fun nm => by rw [nsIter_events]; simp [Event.isRuleDel]) ctx.namespaces
  have hrlR := runLoop_filter_map (ruleIter env) Event.isRuleDel
    (fun x => Event.ruleDel x.1 x.2)
    (fun x => ⟨(ruleIter_benign env hopen hrdel x).1,
      (ruleIter_benign env hopen hrdel x).2.1⟩) ctx.rules
  have hrlL := runLoop_filter_nil (ruleIter env) Event.isLookup
    (fun x => (ruleIter_benign env hopen hrdel x).2.2.1) ctx.rules
  have hrlN := runLoop_filter_nil (ruleIter env) Event.isNsRemove
    (fun x => (ruleIter_benign env hopen hrdel x).2.2.2.1) ctx.rules
  have hfL := freeEvents_filter ctx Event.isLookup (fun b fam => rfl)
  have hfN := freeEvents_filter ctx Event.isNsRemove (fun b fam => rfl)
  have hfR := freeEvents_filter ctx Event.isRuleDel (fun b fam => rfl)
  rw [htd]
  refine ⟨rfl, ?_, ?_, ?_⟩ <;>
    cases hdb : ctx.dbSqlite <;>
      simp [List.filter_append, hifL.2, hifN, hifR, hnsN.2, hnsL, hnsR,
        hrlR.2, hrlL, hrlN, hfL, hfN, hfR, Event.isLookup, Event.isNsRemove,
        Event.isRuleDel]

/-- Whatever the collaborator outcomes, an interface-loop iteration emits
only handle, lookup and link-delete events. -/
theorem ifaceIter_filter_nil (env : TdEnv) (x : String × Option String)
    (p : Event → Bool)
    (hoh : ∀ ns, p (Event.openHandle ns) = false)
    (hlk : ∀ nm, p (Event.lookup nm) = false)
    (hld : ∀ i, p (Event.linkDel i) = false)
    (hch : ∀ ns, p (Event.closeHandle ns) = false) :
    (ifaceIter env x).1.filter p = [] := by
  rcases x with ⟨ifname, nsname⟩
  simp only [ifaceIter]
  cases hop : env.openErr nsname with
  | some e => rfl
  | none =>
    cases hli : env.linkIndices nsname ifname with
    | nil => simp [hoh, hlk, hch]
    | cons i rest =>
      cases hdo : env.linkDelOutcome nsname i with
      | ok => simp [hdo, hoh, hlk, hld, hch]
      | err e =>
        cases e with
        | netlink code =>
          by_cases hc : code = ENODEV <;>
            simp [hdo, hc, hoh, hlk, hld, hch]
        | runtime args => simp [hdo, hoh, hlk, hld, hch]
        | fileNotFound => simp [hdo, hoh, hlk, hld, hch]
        | other nm => simp [hdo, hoh, hlk, hld, hch]

/-! ## Concrete contexts and environments used by the closed theorems -/

/-- All-success collaborator outcomes. -/
def tdeOk : TdEnv :=
  { closeNdbErr := none, closeIprErr := none, closeWgErr := none,
    openErr := fun _ => none,
    linkIndices := fun _ _ => [5],
    linkDelOutcome := fun _ _ => .ok,
    nsRemoveErr := fun _ => none,
    ruleDelOutcome := fun _ _ => .ok }

def envC1 : InitEnv :=
  ⟨"nsc1", ⟨41, 2⟩, ⟨43, 2⟩, ⟨45, 2⟩, ⟨7400, 2048⟩, false, "ifc1"⟩

/-- A context that, besides the construction-time blocks, registered one
IPv4 and one IPv6 network explicitly. -/
def ctxC1 : Ctx :=
  (((initCtx envC1 Target.local true).register_network Family.inet
    ⟨47, 2⟩).2.register_network Family.inet6 ⟨7500, 16⟩).2

/-- Claim C1 (refuting the as-stated claim, supporting the code-bug
verdict): on a context with no failures anywhere, teardown frees each of
the three pre-allocated IPv4 blocks exactly once and each explicitly
registered block exactly once, but issues zero `free_network` calls for
the pre-allocated IPv6 block `self.ip6net`: its construction-time
`allocate_network(AF_INET6)` has no matching free. -/
theorem C1_ip6_block_never_freed :
    (teardown tdeOk ctxC1).2 = none ∧
    freesOf ⟨41, 2⟩ (teardown tdeOk ctxC1).1 = 1 ∧
    freesOf ⟨43, 2⟩ (teardown tdeOk ctxC1).1 = 1 ∧
    freesOf ⟨45, 2⟩ (teardown tdeOk ctxC1).1 = 1 ∧
    freesOf ⟨47, 2⟩ (teardown tdeOk ctxC1).1 = 1 ∧
    freesOf ⟨7500, 16⟩ (teardown tdeOk ctxC1).1 = 1 ∧
    ctxC1.ip6net = ⟨7400, 2048⟩ ∧
    freesOf ⟨7400, 2048⟩ (teardown tdeOk ctxC1).1 = 0 := by
  decide

def envC2 : InitEnv :=
  ⟨"nsc2", ⟨21, 2⟩, ⟨23, 2⟩, ⟨25, 2⟩, ⟨7200, 2048⟩, false, "ifc2"⟩

/-- Two registered interfaces, one namespace, one rule. -/
def ctxC2 : Ctx :=
  (((((initCtx envC2 Target.local true).register "eth-a" none).2.register
    "eth-b" none).2.register_netns "nsy").2.register_rule
    [("priority", 200)] none).2

/-- Deleting interface index 7 (`eth-a`) is denied with `EPERM`; all other
operations would succeed. -/
def tdeC2 : TdEnv :=
  { closeNdbErr := none, closeIprErr := none, closeWgErr := none,
    openErr := fun _ => none,
    linkIndices := fun _ ifname => if ifname = "eth-a" then [7] else [8],
    linkDelOutcome := fun _ i =>
      if i = 7 then .err (.netlink EPERM) else .ok,
    nsRemoveErr := fun _ => none,
    ruleDelOutcome := fun _ _ => .ok }

/-- Claim C2 counterexample: an `EPERM` failure while deleting the first
registered interface makes teardown raise, and the remaining interface
iteration, the namespace step, the rule step and the network-release step
are all skipped even though their registries are non-empty — refuting the
claim that subsequent teardown steps still run after a Fatal error. -/
theorem C2_counterexample :
    (teardown tdeC2 ctxC2).2 = some (PyErr.netlink EPERM) ∧
    ctxC2.namespaces ≠ [] ∧ ctxC2.rules ≠ [] ∧ ctxC2.ipnets ≠ [] ∧
    (teardown tdeC2 ctxC2).1.filter
      (fun ev => ev = Event.lookup "eth-b") = [] ∧
    (teardown tdeC2 ctxC2).1.filter Event.isNsRemove = [] ∧
    (teardown tdeC2 ctxC2).1.filter Event.isRuleDel = [] ∧
    (teardown tdeC2 ctxC2).1.filter Event.isFreeNet = [] := by
  decide

/-- Claim C2 (amended): a Fatal (non-`ENODEV`) failure inside the
interface teardown loop aborts the remaining iterations of that loop and
also every subsequent teardown step: the exception propagates out of
`teardown`, so no namespace removal, no rule removal and no network-block
release is attempted. -/
theorem C2_fatal_aborts_teardown (env : TdEnv) (ctx : Ctx) (e : PyErr)
    (h1 : env.closeNdbErr = none) (h2 : env.closeIprErr = none)
    (h3 : env.closeWgErr = none)
    (hfail : (runLoop (ifaceIter env) ctx.interfaces).2 = some e) :
    (teardown env ctx).2 = some e ∧
    (teardown env ctx).1.filter Event.isNsRemove = [] ∧
    (teardown env ctx).1.filter Event.isRuleDel = [] ∧
    (teardown env ctx).1.filter Event.isFreeNet = [] := by
  have hifN : (runLoop (ifaceIter env) ctx.interfaces).1.filter
      Event.isNsRemove = [] :=
    runLoop_filter_nil _ _ (fun x => ifaceIter_filter_nil env x _
      (fun _ => rfl) (fun _ => rfl) (fun _ => rfl) (fun _ => rfl))
      ctx.interfaces
  have hifR : (runLoop (ifaceIter env) ctx.interfaces).1.filter
      Event.isRuleDel = [] :=
    runLoop_filter_nil _ _ (fun x => ifaceIter_filter_nil env x _
      (fun _ => rfl) (fun _ => rfl) (fun _ => rfl) (fun _ => rfl))
      ctx.interfaces
  have hifF : (runLoop (ifaceIter env) ctx.interfaces).1.filter
      Event.isFreeNet = [] :=
    runLoop_filter_nil _ _ (fun x => ifaceIter_filter_nil env x _
      (fun _ => rfl) (fun _ => rfl) (fun _ => rfl) (fun _ => rfl))
      ctx.interfaces
  rcases hA : runLoop (ifaceIter env) ctx.interfaces with ⟨evA, errA⟩
  rw [hA] at hfail hifN hifR hifF
  simp at hfail
  subst hfail
  unfold teardown
  rw [h1, h2, h3, hA]
  simp only [tdSeq]
  cases hdb : ctx.dbSqlite <;>
    simp [tdSeq, List.filter_append, hifN, hifR, hifF, Event.isNsRemove,
      Event.isRuleDel, Event.isFreeNet]

theorem C2_fatal_aborts_teardown_witness :
    (tdeC2.closeNdbErr = none ∧ tdeC2.closeIprErr = none ∧
      tdeC2.closeWgErr = none ∧
      (runLoop (ifaceIter tdeC2) ctxC2.interfaces).2 =
        some (PyErr.netlink EPERM)) ∧
    ((teardown tdeC2 ctxC2).2 = some (PyErr.netlink EPERM) ∧
      (teardown tdeC2 ctxC2).1.filter Event.isNsRemove = [] ∧
      (teardown tdeC2 ctxC2).1.filter Event.isRuleDel = [] ∧
      (teardown tdeC2 ctxC2).1.filter Event.isFreeNet = []) :=
  ⟨⟨rfl, rfl, rfl, by decide⟩,
    C2_fatal_aborts_teardown tdeC2 ctxC2 (PyErr.netlink EPERM) rfl rfl rfl
      (by decide)⟩

def envC3 : InitEnv :=
  ⟨"nsc3", ⟨31, 2⟩, ⟨33, 2⟩, ⟨35, 2⟩, ⟨7300, 2048⟩, false, "ifc3"⟩

def ctxC3 : Ctx := initCtx envC3 Target.local true

/-- Closing the test NDB raises; everything else would succeed. -/
def tdeC3 : TdEnv :=
  { closeNdbErr := some (PyErr.runtime ["db close failed"]),
    closeIprErr := none, closeWgErr := none,
    openErr := fun _ => none,
    linkIndices := fun _ _ => [],
    linkDelOutcome := fun _ _ => .ok,
    nsRemoveErr := fun _ => none,
    ruleDelOutcome := fun _ _ => .ok }

/-- Claim C3 counterexample: when `self.ndb.close()` raises, the cloned
control handle and the WireGuard handle are never closed — refuting the
claim that each of the three handles is released via scoped
acquisition/release even when an earlier close errors. -/
theorem C3_counterexample :
    (teardown tdeC3 ctxC3).2 = some (PyErr.runtime ["db close failed"]) ∧
    Event.closeNdb ∈ (teardown tdeC3 ctxC3).1 ∧
    Event.closeIpr ∉ (teardown tdeC3 ctxC3).1 ∧
    Event.closeWg ∉ (teardown tdeC3 ctxC3).1 := by
  decide

/-- Claim C3 (amended): teardown closes the database collaborator handle,
the cloned control handle and the WireGuard collaborator handle by three
consecutive unguarded `close()` calls, not by scoped acquisition/release:
whenever the database handle's close raises, the error propagates and the
other two handles are never closed. -/
theorem C3_sequential_closes (env : TdEnv) (ctx : Ctx) (e : PyErr)
    (h : env.closeNdbErr = some e) :
    (teardown env ctx).2 = some e ∧
    Event.closeNdb ∈ (teardown env ctx).1 ∧
    Event.closeIpr ∉ (teardown env ctx).1 ∧
    Event.closeWg ∉ (teardown env ctx).1 := by
  unfold teardown
  rw [h]
  cases hdb : ctx.dbSqlite <;> simp [tdSeq]

theorem C3_sequential_closes_witness :
    tdeC3.closeNdbErr = some (PyErr.runtime ["db close failed"]) ∧
    ((teardown tdeC3 ctxC3).2 = some (PyErr.runtime ["db close failed"]) ∧
      Event.closeNdb ∈ (teardown tdeC3 ctxC3).1 ∧
      Event.closeIpr ∉ (teardown tdeC3 ctxC3).1 ∧
      Event.closeWg ∉ (teardown tdeC3 ctxC3).1) :=
  ⟨rfl, C3_sequential_closes tdeC3 ctxC3 (PyErr.runtime ["db close failed"])
    rfl⟩

/-- Claim C7: when every interface delete reports success or `ENODEV` (or
the index lookup already comes back empty), every namespace removal
reports success or `FileNotFoundError`, and every rule delete reports
success or `ENOENT`, teardown swallows all the absence conditions: it
raises nothing, never retries, and visits every registered interface,
namespace and rule exactly once, in registry order. -/
theorem C7_absent_swallowed (env : TdEnv) (ctx : Ctx) (h : env.benign) :
    (teardown env ctx).2 = none ∧
    (teardown env ctx).1.filter Event.isLookup =
      ctx.interfaces.map (fun p => Event.lookup p.1) ∧
    (teardown env ctx).1.filter Event.isNsRemove =
      ctx.namespaces.map Event.nsRemove ∧
    (teardown env ctx).1.filter Event.isRuleDel =
      ctx.rules.map (fun p => Event.ruleDel p.1 p.2) :=
  teardown_benign_filters env ctx h

def envC7 : InitEnv :=
  ⟨"nsc7", ⟨51, 2⟩, ⟨53, 2⟩, ⟨55, 2⟩, ⟨7600, 2048⟩, false, "ifc7"⟩

/-- One registered interface, one namespace, one rule. -/
def ctxC7 : Ctx :=
  ((((initCtx envC7 Target.local true).register "vx0" none).2.register_netns
    "nsa").2.register_rule [("priority", 300)] none).2

/-- Everything registered is already absent: the interface lookup is
empty, the namespace is gone (`FileNotFoundError`), the rule is gone
(`ENOENT`). -/
def tdeC7 : TdEnv :=
  { closeNdbErr := none, closeIprErr := none, closeWgErr := none,
    openErr := fun _ => none,
    linkIndices := fun _ _ => [],
    linkDelOutcome := fun _ _ => .err (.netlink ENODEV),
    nsRemoveErr := fun _ => some .fileNotFound,
    ruleDelOutcome := fun _ _ => .err (.netlink ENOENT) }

theorem C7_absent_swallowed_witness :
    tdeC7.benign ∧
    ((teardown tdeC7 ctxC7).2 = none ∧
      (teardown tdeC7 ctxC7).1.filter Event.isLookup =
        ctxC7.interfaces.map (fun p => Event.lookup p.1) ∧
      (teardown tdeC7 ctxC7).1.filter Event.isNsRemove =
        ctxC7.namespaces.map Event.nsRemove ∧
      (teardown tdeC7 ctxC7).1.filter Event.isRuleDel =
        ctxC7.rules.map (fun p => Event.ruleDel p.1 p.2)) := by
  have hb : tdeC7.benign :=
    ⟨rfl, rfl, rfl, fun ns => rfl, fun ns i => Or.inr rfl,
      fun nm => Or.inr rfl, fun ns s => Or.inr rfl⟩
  exact ⟨hb, C7_absent_swallowed tdeC7 ctxC7 hb⟩

/-- Claim C8: constructing a context with target mode `netns` records a
generated namespace name in the namespace registry already at construction
time (before any explicit registration call), binds the source descriptor
to it, and teardown — even over a context whose test body did nothing —
issues the `netns.remove` call for that namespace and completes. -/
theorem C8_netns_target (env : InitEnv) (d : Bool) (tde : TdEnv)
    (h : tde.benign) :
    (initCtx env Target.netns d).namespaces = [env.nsName] ∧
    (initCtx env Target.netns d).netnsName = some env.nsName ∧
    (initCtx env Target.netns d).sources =
      some [⟨"localhost", SourceKind.netns, some env.nsName⟩] ∧
    Event.nsRemove env.nsName ∈
      (teardown tde (initCtx env Target.netns d)).1 ∧
    (teardown tde (initCtx env Target.netns d)).2 = none := by
  refine ⟨rfl, rfl, rfl, ?_,
    (teardown_benign_filters tde (initCtx env Target.netns d) h).1⟩
  have hfil :=
    (teardown_benign_filters tde (initCtx env Target.netns d) h).2.2.1
  have hmem : Event.nsRemove env.nsName ∈
      (teardown tde (initCtx env Target.netns d)).1.filter
        Event.isNsRemove := by
    rw [hfil]
    have hns : (initCtx env Target.netns d).namespaces = [env.nsName] := rfl
    rw [hns]
    simp
  exact List.mem_of_mem_filter hmem

def envC8 : InitEnv :=
  ⟨"nsc8", ⟨61, 2⟩, ⟨63, 2⟩, ⟨65, 2⟩, ⟨7700, 2048⟩, false, "ifc8"⟩

theorem C8_netns_target_witness :
    tdeOk.benign ∧
    ((initCtx envC8 Target.netns true).namespaces = [envC8.nsName] ∧
      (initCtx envC8 Target.netns true).netnsName = some envC8.nsName ∧
      (initCtx envC8 Target.netns true).sources =
        some [⟨"localhost", SourceKind.netns, some envC8.nsName⟩] ∧
      Event.nsRemove envC8.nsName ∈
        (teardown tdeOk (initCtx envC8 Target.netns true)).1 ∧
      (teardown tdeOk (initCtx envC8 Target.netns true)).2 = none) := by
  have hb : tdeOk.benign :=
    ⟨rfl, rfl, rfl, fun ns => rfl, fun ns i => Or.inl rfl,
      fun nm => Or.inl rfl, fun ns s => Or.inl rfl⟩
  exact ⟨hb, C8_netns_target envC8 true tdeOk hb⟩

/-! ## Dict-semantics lemmas for the interface registry -/

theorem filter_key_nil (k : String) :
    ∀ l : List (String × Option String), k ∉ l.map Prod.fst →
      l.filter (fun q => q.1 = k) = [] := by
  intro l
  induction l with
  | nil => intro _; rfl
  | cons q rest ih =>
    intro h
    simp only [List.map_cons, List.mem_cons] at h
    push_neg at h
    have hq : ¬(q.1 = k) := fun hh => h.1 hh.symm
    simp [List.filter_cons, hq, ih h.2]

theorem dictInsert_filter_key (k : String) (v : Option String) :
    ∀ l : List (String × Option String), (l.map Prod.fst).Nodup →
      (dictInsert k v l).filter (fun q => q.1 = k) = [(k, v)] := by
  intro l
  induction l with
  | nil => intro _; simp [dictInsert]
  | cons q rest ih =>
    intro hnd
    simp only [List.map_cons, List.nodup_cons] at hnd
    by_cases hqk : q.1 = k
    · rw [dictInsert, if_pos hqk]
      have hmem : k ∉ rest.map Prod.fst := by
        rw [← hqk]
        exact hnd.1
      simp [List.filter_cons, filter_key_nil k rest hmem]
    · rw [dictInsert, if_neg hqk]
      simp [List.filter_cons, hqk, ih hnd.2]

theorem dictInsert_dictInsert (k : String) (v1 v2 : Option String) :
    ∀ l : List (String × Option String),
      dictInsert k v2 (dictInsert k v1 l) = dictInsert k v2 l := by
  intro l
  induction l with
  | nil => simp [dictInsert]
  | cons q rest ih =>
    by_cases hqk : q.1 = k
    · rw [dictInsert, if_pos hqk, dictInsert]
      simp [dictInsert, hqk]
    · rw [dictInsert, if_neg hqk, dictInsert, if_neg hqk, dictInsert,
        if_neg hqk, ih]

/-! ## Counting specific events in a trace -/

theorem trace_filter_len (p : Event → Bool) (ev : Event)
    (hev : p ev = true) :
    ∀ tr : List Event,
      (tr.filter (fun x => x = ev)).length =
        ((tr.filter p).filter (fun x => x = ev)).length := by
  intro tr
  induction tr with
  | nil => rfl
  | cons x xs ih =>
    by_cases hx : x = ev
    · subst hx
      simp [List.filter_cons, hev, ih]
    · by_cases hpx : p x = true <;>
        simp [List.filter_cons, hx, hpx, ih]

theorem lookup_map_filter (a : String) :
    ∀ l : List (String × Option String),
      ((l.map (fun q => Event.lookup q.1)).filter
        (fun x => x = Event.lookup a)).length =
        (l.filter (fun q => q.1 = a)).length := by
  intro l
  induction l with
  | nil => rfl
  | cons q rest ih =>
    by_cases hq : q.1 = a <;> simp [List.filter_cons, hq, ih]

theorem ruleDel_map_filter (nsr : Option String) (s : RuleSpec) :
    ∀ l : List (Option String × RuleSpec),
      ((l.map (fun q => Event.ruleDel q.1 q.2)).filter
        (fun x => x = Event.ruleDel nsr s)).length =
        (l.filter (fun q => q = (nsr, s))).length := by
  intro l
  induction l with
  | nil => rfl
  | cons q rest ih =>
    by_cases hq : q = (nsr, s)
    · subst hq
      simp [List.filter_cons, ih]
    · have : ¬(q.1 = nsr ∧ q.2 = s) := by
        intro hh
        exact hq (Prod.ext hh.1 hh.2)
      simp [List.filter_cons, hq, this, ih]

/-- Claim C10: registering the same explicit interface name twice leaves
exactly one interface-registry entry for that name, bound to the second
call's namespace (dict assignment overwrites), so a benign teardown looks
that name up exactly once; registering the same rule spec twice appends
twice, leaving two rule-registry entries and two teardown delete attempts
for that rule. -/
theorem C10_register_semantics (ctx0 : Ctx) (env : TdEnv) (a : String)
    (ns1 ns2 nsr : Option String) (s : RuleSpec) (c : Ctx)
    (hkeys : (ctx0.interfaces.map Prod.fst).Nodup)
    (hrules : ctx0.rules = [])
    (hb : env.benign)
    (hc : c = ((((ctx0.register a ns1).2.register a ns2).2.register_rule
      s nsr).2.register_rule s nsr).2) :
    c.interfaces.filter (fun q => q.1 = a) = [(a, ns2)] ∧
    c.rules = [(nsr, s), (nsr, s)] ∧
    ((teardown env c).1.filter (fun x => x = Event.lookup a)).length = 1 ∧
    ((teardown env c).1.filter
      (fun x => x = Event.ruleDel nsr s)).length = 2 := by
  have hint : c.interfaces = dictInsert a ns2 ctx0.interfaces := by
    rw [hc]
    simp [Ctx.register, Ctx.register_rule, dictInsert_dictInsert]
  have hrul : c.rules = [(nsr, s), (nsr, s)] := by
    rw [hc]
    simp [Ctx.register, Ctx.register_rule, hrules]
  have hfilters := teardown_benign_filters env c hb
  refine ⟨?_, hrul, ?_, ?_⟩
  · rw [hint]
    exact dictInsert_filter_key a ns2 ctx0.interfaces hkeys
  · rw [trace_filter_len Event.isLookup (Event.lookup a) rfl,
      hfilters.2.1, lookup_map_filter, hint,
      dictInsert_filter_key a ns2 ctx0.interfaces hkeys]
    rfl
  · rw [trace_filter_len Event.isRuleDel (Event.ruleDel nsr s) rfl,
      hfilters.2.2.2, ruleDel_map_filter, hrul]
    simp

def envC10 : InitEnv :=
  ⟨"nsca", ⟨71, 2⟩, ⟨73, 2⟩, ⟨75, 2⟩, ⟨7800, 2048⟩, false, "ifca"⟩

theorem C10_register_semantics_witness :
    (((initCtx envC10 Target.local true).interfaces.map Prod.fst).Nodup ∧
      (initCtx envC10 Target.local true).rules = [] ∧ tdeOk.benign) ∧
    (((((((initCtx envC10 Target.local true).register "tap0" none).2.register
        "tap0" (some "nsb")).2.register_rule [("priority", 400)]
        none).2.register_rule [("priority", 400)] none).2.interfaces.filter
        (fun q => q.1 = "tap0") = [("tap0", some "nsb")]) ∧
      ((((((initCtx envC10 Target.local true).register "tap0" none).2.register
        "tap0" (some "nsb")).2.register_rule [("priority", 400)]
        none).2.register_rule [("priority", 400)] none).2.rules =
        [(none, [("priority", 400)]), (none, [("priority", 400)])]) ∧
      (((teardown tdeOk (((((initCtx envC10 Target.local true).register
        "tap0" none).2.register "tap0" (some "nsb")).2.register_rule
        [("priority", 400)] none).2.register_rule [("priority", 400)]
        none).2).1.filter (fun x => x = Event.lookup "tap0")).length = 1) ∧
      (((teardown tdeOk (((((initCtx envC10 Target.local true).register
        "tap0" none).2.register "tap0" (some "nsb")).2.register_rule
        [("priority", 400)] none).2.register_rule [("priority", 400)]
        none).2).1.filter
        (fun x => x = Event.ruleDel none [("priority", 400)])).length =
        2)) := by
  have hb : tdeOk.benign :=
    ⟨rfl, rfl, rfl, fun ns => rfl, fun ns i => Or.inl rfl,
      fun nm => Or.inl rfl, fun ns s => Or.inl rfl⟩
  exact ⟨⟨by decide, rfl, hb⟩,
    C10_register_semantics (initCtx envC10 Target.local true) tdeOk "tap0"
      none (some "nsb") none [("priority", 400)] _ (by decide) rfl hb rfl⟩

end Pr2

